import Mathlib

/-!
Verification of the LapLens telemetry core against its specification.

The definitions below are a shallow embedding of the Python sources:
`src/utils/telemetry_processor.py`, `src/utils/data_loader.py`,
`src/utils/story_generator.py`, `src/utils/visualizations.py` and
`src/config/config.py`.  DataFrame columns are modelled as Lean lists,
numeric channel values as rationals (reals where a square root is
computed by the code), and optional columns as `Option`.
-/

namespace LapLens

/-- Embeds `config.LAP_DISTANCE_THRESHOLD` (config.py line 57): distance, in
meters, from the start/finish line within which a lap crossing may be seen. -/
def LAP_DISTANCE_THRESHOLD : ℚ := 100

/-- Embeds `config.ERRONEOUS_LAP_NUMBER` (config.py line 58): the sentinel lap
number that marks an erroneous lap value in the telemetry. -/
def ERRONEOUS_LAP_NUMBER : ℤ := 32768

/-- Maximum of a list of rationals, `Series.max` of a distance column;
defaults to 0 on the empty column (which never occurs for a present column
with rows). -/
def listMax : List ℚ → ℚ
  | [] => 0
  | x :: xs => xs.foldl max x

/-- Minimum of a list of rationals, `Series.min`; 0 on the empty list. -/
def listMin : List ℚ → ℚ
  | [] => 0
  | x :: xs => xs.foldl min x

/-- Running inclusive sums starting from an accumulator: the recursion that
realizes pandas `Series.cumsum` (entry `i` of the result sums entries
`0..i` of the input). -/
def cumsumFrom (acc : ℤ) : List ℤ → List ℤ
  | [] => []
  | x :: xs => (acc + x) :: cumsumFrom (acc + x) xs

/-- pandas `Series.cumsum` on an integer column. -/
def cumsum (xs : List ℤ) : List ℤ := cumsumFrom 0 xs

/-- Embeds the boolean series `lap_crossing` of
`TelemetryProcessor.detect_laps` (telemetry_processor.py lines 53-56):
`(distance < LAP_DISTANCE_THRESHOLD) & (distance.shift(1) > max_distance -
LAP_DISTANCE_THRESHOLD)`.  At row 0 `shift(1)` is NaN and the comparison is
False, so row 0 never carries a crossing. -/
def crossingAt (d : List ℚ) (i : ℕ) : Bool :=
  decide (d.getD i 0 < LAP_DISTANCE_THRESHOLD) &&
    match i with
    | 0 => false
    | j + 1 => decide (listMax d - LAP_DISTANCE_THRESHOLD < d.getD j 0)

/-- The whole `lap_crossing` boolean column, one entry per row. -/
def lapCrossings (d : List ℚ) : List Bool :=
  (List.range d.length).map (crossingAt d)

/-- Embeds the column `lap_detected` of `TelemetryProcessor.detect_laps`
(telemetry_processor.py line 59): `lap_crossing.cumsum() + 1`. -/
def lapDetected (d : List ℚ) : List ℤ :=
  (cumsum ((lapCrossings d).map fun b => if b then 1 else 0)).map (· + 1)

/-- The columns of a telemetry DataFrame read and written by lap handling:
the row count, the optional column `Laptrigger_lapdist_dls` and the optional
column `lap`. -/
structure TelemetryDF where
  n : ℕ
  distance : Option (List ℚ)
  lap : Option (List ℤ)

/-- Embeds `TelemetryProcessor.detect_laps` (telemetry_processor.py lines
30-67), giving the `lap` column of the returned frame: with no distance
column the existing `lap` column is kept (or all rows get lap 1); with a
distance column the detected laps replace `lap` exactly when `lap` is
missing or contains the erroneous sentinel. -/
def detect_laps (df : TelemetryDF) : List ℤ :=
  match df.distance with
  | none =>
      match df.lap with
      | none => List.replicate df.n 1
      | some l => l
  | some d =>
      match df.lap with
      | none => lapDetected d
      | some l => if ERRONEOUS_LAP_NUMBER ∈ l then lapDetected d else l

/-- Embeds `TelemetryDataLoader.clean_lap_numbers` (data_loader.py lines
199-233), giving the `lap` column of the result (`none` when the input has
no `lap` column).  When some row carries the sentinel and the distance
column is present, the column `lap_corrected` (data_loader.py lines 222-228,
the same crossing-detection formula as `detect_laps`) overwrites exactly the
sentinel rows. -/
def clean_lap_numbers (df : TelemetryDF) : Option (List ℤ) :=
  match df.lap with
  | none => none
  | some l =>
      if ERRONEOUS_LAP_NUMBER ∈ l then
        match df.distance with
        | some d =>
            some (l.zipWith
              (fun li ci => if li = ERRONEOUS_LAP_NUMBER then ci else li)
              (lapDetected d))
        | none => some l
      else some l

lemma cumsumFrom_length (xs : List ℤ) : ∀ acc : ℤ, (cumsumFrom acc xs).length = xs.length := by
  induction xs with
  | nil => intro acc; simp [cumsumFrom]
  | cons x xs ih => intro acc; simp [cumsumFrom, ih]

lemma cumsumFrom_getD (xs : List ℤ) :
    ∀ (acc : ℤ) (i : ℕ), i < xs.length →
      (cumsumFrom acc xs).getD i 0 = acc + (xs.take (i + 1)).sum := by
  induction xs with
  | nil => intro acc i hi; simp at hi
  | cons x xs ih =>
      intro acc i hi
      cases i with
      | zero => simp [cumsumFrom]
      | succ j =>
          have hj : j < xs.length := by simpa using hi
          simp only [cumsumFrom, List.getD_cons_succ, List.take_succ_cons,
            List.sum_cons, ih (acc + x) j hj]
          ring

lemma sum_map_ite_count (bs : List Bool) :
    ((bs.map fun b => if b then (1 : ℤ) else 0)).sum = bs.count true := by
  induction bs with
  | nil => simp
  | cons b bs ih =>
      cases b with
      | false => simp [List.count_cons, ih]
      | true =>
          simp [List.count_cons, ih]
          ring

lemma lapCrossings_length (d : List ℚ) : (lapCrossings d).length = d.length := by
  simp [lapCrossings]

lemma lapDetected_length (d : List ℚ) : (lapDetected d).length = d.length := by
  simp [lapDetected, cumsumFrom_length, cumsum, lapCrossings_length]

lemma lapCrossings_getD (d : List ℚ) (i : ℕ) (hi : i < d.length) :
    (lapCrossings d).getD i false = crossingAt d i := by
  have hlen : i < (lapCrossings d).length := by simpa [lapCrossings_length] using hi
  rw [List.getD_eq_getElem _ _ hlen]
  simp [lapCrossings]

lemma lapDetected_getD (d : List ℚ) (i : ℕ) (hi : i < d.length) :
    (lapDetected d).getD i 0 = 1 + ((lapCrossings d).take (i + 1)).count true := by
  have hcl : i < (lapCrossings d).length := by simpa [lapCrossings_length] using hi
  have hml : i < ((lapCrossings d).map fun b => if b then (1 : ℤ) else 0).length := by
    simpa using hcl
  have hcs : i < (cumsum ((lapCrossings d).map fun b => if b then (1 : ℤ) else 0)).length := by
    simpa [cumsum, cumsumFrom_length] using hml
  have hld : i < (lapDetected d).length := by simpa [lapDetected_length] using hi
  rw [List.getD_eq_getElem _ _ hld]
  unfold lapDetected
  rw [List.getElem_map]
  rw [← List.getD_eq_getElem _ (0 : ℤ) hcs]
  rw [cumsum, cumsumFrom_getD _ 0 i hml]
  rw [← List.map_take, sum_map_ite_count]
  ring

/-- Claim C1, counterexample.  With the distance column `[500, 50]`
(max 500, threshold 100) row 1 is a crossing row: `detect_laps` assigns it
lap `1 + (crossings at rows 0..1) = 2`, while the claim's formula
`1 + (count of crossings strictly before row 1)` gives `1 + 0 = 1`. -/
theorem C1_counterexample :
    lapCrossings [500, 50] = [false, true] ∧
    lapDetected [500, 50] = [1, 2] ∧
    ¬ ((lapDetected [500, 50]).getD 1 0 =
        1 + (((lapCrossings [500, 50]).take 1).count true)) := by
  have hm : listMax [500, 50] = 500 := rfl
  have c0 : crossingAt [500, 50] 0 = false := by
    simp [crossingAt]
  have c1 : crossingAt [500, 50] 1 = true := by
    simp only [crossingAt, hm, LAP_DISTANCE_THRESHOLD, List.getD_cons_succ,
      List.getD_cons_zero, Bool.and_eq_true, decide_eq_true_eq]
    norm_num
  have h1 : lapCrossings [500, 50] = [false, true] := by
    simp only [lapCrossings, List.length_cons, List.length_nil]
    norm_num [List.range_succ, c0, c1]
  have h2 : lapDetected [500, 50] = [1, 2] := by
    rw [lapDetected, h1]
    rfl
  refine ⟨h1, h2, ?_⟩
  rw [h2, h1]
  decide

/-- Claim C1 (amended): in `detect_laps`, a crossing is declared at row `i`
exactly when `distance[i] < 100` and `i > 0` and
`distance[i-1] > max(distance) - 100`; the first row never carries a
crossing; and the lap id of row `i` is `1 +` the count of crossings at rows
`0..i` inclusive (so a crossing row already belongs to the new lap), which
makes the first row's lap id 1. -/
theorem C1_lap_detection (d : List ℚ) (i : ℕ) (hi : i < d.length) :
    ((lapCrossings d).getD i false = true ↔
      (d.getD i 0 < LAP_DISTANCE_THRESHOLD ∧ 0 < i ∧
        listMax d - LAP_DISTANCE_THRESHOLD < d.getD (i - 1) 0)) ∧
    (lapCrossings d).getD 0 false = false ∧
    (lapDetected d).getD i 0 = 1 + ((lapCrossings d).take (i + 1)).count true ∧
    (lapDetected d).getD 0 0 = 1 := by
  have h0 : (lapCrossings d).getD 0 false = false := by
    rcases Nat.eq_zero_or_pos d.length with hd | hd
    · rw [List.getD_eq_default]
      simp [lapCrossings_length, hd]
    · rw [lapCrossings_getD d 0 hd]
      simp [crossingAt]
  refine ⟨?_, h0, lapDetected_getD d i hi, ?_⟩
  · rw [lapCrossings_getD d i hi]
    cases i with
    | zero => simp [crossingAt]
    | succ j =>
        simp only [crossingAt, Bool.and_eq_true, decide_eq_true_eq]
        constructor
        · rintro ⟨h1, h2⟩
          exact ⟨h1, Nat.succ_pos j, by simpa using h2⟩
        · rintro ⟨h1, _, h3⟩
          exact ⟨h1, by simpa using h3⟩
  · have hd0' : 0 < d.length := lt_of_le_of_lt (Nat.zero_le i) hi
    rw [lapDetected_getD d 0 hd0']
    have : (lapCrossings d).take 1 = [(lapCrossings d).getD 0 false] := by
      have hcl : 0 < (lapCrossings d).length := by simpa [lapCrossings_length] using hd0'
      cases hc : lapCrossings d with
      | nil => rw [hc] at hcl; simp at hcl
      | cons b bs => simp [List.getD_cons_zero]
    rw [this, h0]
    simp

/-- Witness for C1: the amended lap-id rule evaluated on the concrete
distance column `[500, 50]` at row 1. -/
theorem C1_lap_detection_witness :
    (lapDetected [500, 50]).getD 1 0 = 1 + ((lapCrossings [500, 50]).take 2).count true :=
  (C1_lap_detection [500, 50] 1 (by decide)).2.2.1

/-- Claim C8: `clean_lap_numbers` overwrites the `lap` value only on rows
whose lap equals the sentinel 32768, recomputing those rows from crossing
detection on the distance channel; every non-sentinel row keeps its original
lap value; and the table is returned unchanged when the `lap` column or the
distance column is absent. -/
theorem C8_clean_lap_numbers (df : TelemetryDF) :
    (df.lap = none → clean_lap_numbers df = none) ∧
    (∀ l, df.lap = some l → df.distance = none → clean_lap_numbers df = some l) ∧
    (∀ l d, df.lap = some l → df.distance = some d → l.length = d.length →
      ∃ l', clean_lap_numbers df = some l' ∧ l'.length = l.length ∧
        ∀ i, i < l.length →
          l'.getD i 0 = if l.getD i 0 = ERRONEOUS_LAP_NUMBER
            then (lapDetected d).getD i 0 else l.getD i 0) := by
  refine ⟨?_, ?_, ?_⟩
  · intro h
    simp [clean_lap_numbers, h]
  · intro l hl hd
    simp [clean_lap_numbers, hl, hd]
  · intro l d hl hd hlen
    simp only [clean_lap_numbers, hl, hd]
    by_cases hmem : ERRONEOUS_LAP_NUMBER ∈ l
    · rw [if_pos hmem]
      refine ⟨_, rfl, ?_, ?_⟩
      · simp [List.length_zipWith, lapDetected_length, ← hlen]
      · intro i hi
        have hi2 : i < (lapDetected d).length := by
          rw [lapDetected_length, ← hlen]
          exact hi
        have hzl : i < (l.zipWith
            (fun li ci => if li = ERRONEOUS_LAP_NUMBER then ci else li)
            (lapDetected d)).length := by
          simp only [List.length_zipWith, lapDetected_length, ← hlen]
          omega
        rw [List.getD_eq_getElem _ _ hzl, List.getElem_zipWith,
          List.getD_eq_getElem _ _ hi, List.getD_eq_getElem _ _ hi2]
    · rw [if_neg hmem]
      refine ⟨l, rfl, rfl, ?_⟩
      intro i hi
      have hne : l.getD i 0 ≠ ERRONEOUS_LAP_NUMBER := by
        intro he
        apply hmem
        rw [List.getD_eq_getElem _ _ hi] at he
        exact he ▸ List.getElem_mem hi
      rw [if_neg hne]

/-- Witness for C8: the row rule evaluated on a three-row frame whose middle
row carries the sentinel. -/
theorem C8_clean_lap_numbers_witness :
    ∃ l', clean_lap_numbers ⟨3, some [500, 50, 500], some [7, 32768, 7]⟩ = some l' ∧
      l'.length = ([7, 32768, 7] : List ℤ).length ∧
      ∀ i, i < ([7, 32768, 7] : List ℤ).length →
        l'.getD i 0 = if ([7, 32768, 7] : List ℤ).getD i 0 = ERRONEOUS_LAP_NUMBER
          then (lapDetected [500, 50, 500]).getD i 0
          else ([7, 32768, 7] : List ℤ).getD i 0 :=
  (C8_clean_lap_numbers ⟨3, some [500, 50, 500], some [7, 32768, 7]⟩).2.2
    [7, 32768, 7] [500, 50, 500] rfl rfl rfl

/-- Claim C9: in `detect_laps`, when the distance channel is present and the
pre-existing `lap` column contains at least one sentinel 32768, the entire
`lap` column is replaced by the crossing-detected lap numbers for all rows;
when it contains no sentinel the `lap` column is left unchanged and the
detected values are discarded. -/
theorem C9_detect_laps_sentinel (n : ℕ) (d : List ℚ) (l : List ℤ) :
    (ERRONEOUS_LAP_NUMBER ∈ l →
      detect_laps ⟨n, some d, some l⟩ = lapDetected d) ∧
    (ERRONEOUS_LAP_NUMBER ∉ l →
      detect_laps ⟨n, some d, some l⟩ = l) := by
  constructor
  · intro hm
    simp [detect_laps, hm]
  · intro hm
    simp [detect_laps, hm]

/-- Witness for C9: a frame whose lap column holds one sentinel is rewritten
wholesale (including the non-sentinel first row); a sentinel-free lap column
is kept verbatim. -/
theorem C9_detect_laps_sentinel_witness :
    detect_laps ⟨2, some [500, 50], some [7, 32768]⟩ = lapDetected [500, 50] ∧
    detect_laps ⟨2, some [500, 50], some [7, 8]⟩ = [7, 8] :=
  ⟨(C9_detect_laps_sentinel 2 [500, 50] [7, 32768]).1 (by decide),
   (C9_detect_laps_sentinel 2 [500, 50] [7, 8]).2 (by decide)⟩

lemma foldl_min_le_init (xs : List ℚ) : ∀ a : ℚ, xs.foldl min a ≤ a := by
  induction xs with
  | nil => intro a; simp
  | cons x xs ih =>
      intro a
      calc (x :: xs).foldl min a = xs.foldl min (min a x) := rfl
        _ ≤ min a x := ih (min a x)
        _ ≤ a := min_le_left a x

lemma foldl_min_le_mem (xs : List ℚ) : ∀ (a x : ℚ), x ∈ xs → xs.foldl min a ≤ x := by
  induction xs with
  | nil => intro a x hx; simp at hx
  | cons y ys ih =>
      intro a x hx
      rcases List.mem_cons.mp hx with h | h
      · subst h
        calc (x :: ys).foldl min a = ys.foldl min (min a x) := rfl
          _ ≤ min a x := foldl_min_le_init ys (min a x)
          _ ≤ x := min_le_right a x
      · exact ih (min a y) x h

lemma foldl_min_eq_init_or_mem (xs : List ℚ) :
    ∀ a : ℚ, xs.foldl min a = a ∨ xs.foldl min a ∈ xs := by
  induction xs with
  | nil => intro a; left; rfl
  | cons y ys ih =>
      intro a
      rcases ih (min a y) with h | h
      · rcases min_choice a y with hm | hm
        · left
          rw [List.foldl_cons, h, hm]
        · right
          rw [List.foldl_cons, h, hm]
          exact List.mem_cons_self y ys
      · right
        exact List.mem_cons_of_mem y h

lemma listMin_le (l : List ℚ) (x : ℚ) (hx : x ∈ l) : listMin l ≤ x := by
  cases l with
  | nil => simp at hx
  | cons y ys =>
      show ys.foldl min y ≤ x
      rcases List.mem_cons.mp hx with h | h
      · subst h
        exact foldl_min_le_init ys x
      · exact foldl_min_le_mem ys y x h

lemma listMin_mem (l : List ℚ) (h : l ≠ []) : listMin l ∈ l := by
  cases l with
  | nil => exact absurd rfl h
  | cons y ys =>
      show ys.foldl min y ∈ y :: ys
      rcases foldl_min_eq_init_or_mem ys y with h' | h'
      · rw [h']
        exact List.mem_cons_self y ys
      · exact List.mem_cons_of_mem y h'

/-- Embeds `TelemetryProcessor.calculate_lap_deltas` (telemetry_processor.py
lines 276-302) in the default `reference_lap=None` case.  A LapRecord table
is represented by its `lap_time` column; each output pair is
`(lap_time, delta_to_best)` with `ref_time = df['lap_time'].min()`
(line 297) and `delta_to_best = lap_time - ref_time` (line 300). -/
def calculate_lap_deltas (times : List ℚ) : List (ℚ × ℚ) :=
  times.map fun t => (t, t - listMin times)

/-- Claim C2, counterexample: on a table of two laps that share the minimal
lap time 90, `calculate_lap_deltas` gives `delta_to_best = 0` to both rows,
so "exactly one row has delta_to_best == 0" fails. -/
theorem C2_counterexample :
    calculate_lap_deltas [90, 90] = [(90, 0), (90, 0)] ∧
    (calculate_lap_deltas [90, 90]).countP (fun p => decide (p.2 = 0)) = 2 ∧
    ¬ ((calculate_lap_deltas [90, 90]).countP (fun p => decide (p.2 = 0)) = 1) := by
  have hmin : listMin [90, 90] = (90 : ℚ) := rfl
  have h : calculate_lap_deltas [90, 90] = [(90, 0), (90, 0)] := by
    simp [calculate_lap_deltas, hmin]
  rw [h]
  refine ⟨rfl, by decide, by decide⟩

/-- Claim C2 (amended): for every nonempty LapRecord table produced by
`calculate_lap_deltas` with no reference lap given, every row's
`delta_to_best` is at least 0 and is 0 exactly when its `lap_time` is the
minimum lap time; at least one row has delta 0; the number of zero-delta
rows equals the multiplicity of the minimum lap time, so exactly one row
has delta 0 whenever the minimum lap time is attained by a single row. -/
theorem C2_lap_deltas (times : List ℚ) (h : times ≠ []) :
    (∀ p ∈ calculate_lap_deltas times, 0 ≤ p.2 ∧ (p.2 = 0 ↔ p.1 = listMin times)) ∧
    (∃ p ∈ calculate_lap_deltas times, p.2 = 0 ∧ p.1 = listMin times) ∧
    (calculate_lap_deltas times).countP (fun p => decide (p.2 = 0)) =
      times.count (listMin times) ∧
    (times.count (listMin times) = 1 →
      (calculate_lap_deltas times).countP (fun p => decide (p.2 = 0)) = 1) := by
  have hcount : (calculate_lap_deltas times).countP (fun p => decide (p.2 = 0)) =
      times.count (listMin times) := by
    rw [calculate_lap_deltas, List.countP_map, List.count_eq_countP]
    apply List.countP_congr
    intro t ht
    simp [Function.comp, sub_eq_zero]
  refine ⟨?_, ?_, hcount, fun h1 => hcount.trans h1⟩
  · intro p hp
    rw [calculate_lap_deltas, List.mem_map] at hp
    obtain ⟨t, ht, rfl⟩ := hp
    exact ⟨sub_nonneg.mpr (listMin_le times t ht), sub_eq_zero⟩
  · exact ⟨(listMin times, listMin times - listMin times),
      List.mem_map_of_mem _ (listMin_mem times h), by simp, rfl⟩

/-- Witness for C2: the amended delta invariant evaluated on the lap-time
table `[92, 90, 91]`. -/
theorem C2_lap_deltas_witness :
    ∃ p ∈ calculate_lap_deltas [92, 90, 91], p.2 = 0 ∧ p.1 = listMin [92, 90, 91] :=
  (C2_lap_deltas [92, 90, 91] (by simp)).2.1

/-- The `sector_time` values of the rows of a SectorRecord table that carry
the sector name `s`: one group of `df.groupby('sector')['sector_time']`
(telemetry_processor.py line 320). -/
def groupTimes (rows : List (String × ℚ)) (s : String) : List ℚ :=
  (rows.filter fun r => r.1 == s).map Prod.snd

/-- Embeds `best_sectors.get(row['sector'], 0)` of
`TelemetryProcessor.calculate_sector_deltas` (telemetry_processor.py lines
320-325): the minimum sector time of the group named `s`, defaulting to 0
when no row carries `s` (`listMin [] = 0` matches the dict default). -/
def bestSector (rows : List (String × ℚ)) (s : String) : ℚ :=
  listMin (groupTimes rows s)

/-- Embeds `TelemetryProcessor.calculate_sector_deltas`
(telemetry_processor.py lines 304-328).  A SectorRecord table is represented
by its `(sector, sector_time)` columns; each row becomes
`(sector, sector_time, delta_to_best)` with
`delta_to_best = sector_time - best_sectors[sector]`. -/
def calculate_sector_deltas (rows : List (String × ℚ)) : List (String × ℚ × ℚ) :=
  rows.map fun r => (r.1, r.2, r.2 - bestSector rows r.1)

/-- Claim C3, counterexample: two rows of the same sector "S1" sharing the
minimal sector time 40 both receive `delta_to_best = 0`, so "within every
sector-name group exactly one row has delta 0" fails. -/
theorem C3_counterexample :
    calculate_sector_deltas [("S1", 40), ("S1", 40)] =
      [("S1", 40, 0), ("S1", 40, 0)] ∧
    (calculate_sector_deltas [("S1", 40), ("S1", 40)]).countP
      (fun q => q.1 == "S1" && decide (q.2.2 = 0)) = 2 ∧
    ¬ ((calculate_sector_deltas [("S1", 40), ("S1", 40)]).countP
      (fun q => q.1 == "S1" && decide (q.2.2 = 0)) = 1) := by
  have hb : bestSector [("S1", 40), ("S1", 40)] "S1" = (40 : ℚ) := rfl
  have h : calculate_sector_deltas [("S1", 40), ("S1", 40)] =
      [("S1", 40, 0), ("S1", 40, 0)] := by
    simp [calculate_sector_deltas, hb]
  rw [h]
  refine ⟨rfl, by decide, by decide⟩

/-- Claim C3 (amended): in every SectorRecord table produced by
`calculate_sector_deltas`, each row's `delta_to_best` equals its
`sector_time` minus the minimum `sector_time` of the rows sharing its sector
name (computed per sector group); within every inhabited sector group all
deltas are at least 0, the zero-delta rows are exactly those attaining the
group minimum, at least one row of the group has delta 0, the number of
zero-delta rows equals the multiplicity of the group minimum, and hence the
zero-delta row is unique whenever the group minimum is uniquely attained. -/
theorem C3_sector_deltas (rows : List (String × ℚ)) (s : String)
    (hs : ∃ r ∈ rows, r.1 = s) :
    (∀ q ∈ calculate_sector_deltas rows, q.2.2 = q.2.1 - bestSector rows q.1) ∧
    (∀ q ∈ calculate_sector_deltas rows, q.1 = s →
      0 ≤ q.2.2 ∧ (q.2.2 = 0 ↔ q.2.1 = bestSector rows s)) ∧
    (∃ q ∈ calculate_sector_deltas rows, q.1 = s ∧ q.2.2 = 0) ∧
    (calculate_sector_deltas rows).countP
        (fun q => q.1 == s && decide (q.2.2 = 0)) =
      (groupTimes rows s).count (bestSector rows s) ∧
    ((groupTimes rows s).count (bestSector rows s) = 1 →
      (calculate_sector_deltas rows).countP
        (fun q => q.1 == s && decide (q.2.2 = 0)) = 1) := by
  obtain ⟨r0, hr0, hr0s⟩ := hs
  have hmemg : r0.2 ∈ groupTimes rows s := by
    rw [groupTimes]
    exact List.mem_map_of_mem _ (List.mem_filter.mpr ⟨hr0, by simp [hr0s]⟩)
  have hgne : groupTimes rows s ≠ [] := List.ne_nil_of_mem hmemg
  have hcount : (calculate_sector_deltas rows).countP
      (fun q => q.1 == s && decide (q.2.2 = 0)) =
      (groupTimes rows s).count (bestSector rows s) := by
    rw [calculate_sector_deltas, List.countP_map, groupTimes,
      List.count_eq_countP, List.countP_map, List.countP_filter]
    apply List.countP_congr
    intro r hr
    by_cases h1 : r.1 = s
    · simp [Function.comp, h1, sub_eq_zero, bestSector, and_comm]
    · simp [Function.comp, h1]
  refine ⟨?_, ?_, ?_, hcount, fun h1 => hcount.trans h1⟩
  · intro q hq
    rw [calculate_sector_deltas, List.mem_map] at hq
    obtain ⟨r, _, rfl⟩ := hq
    rfl
  · intro q hq hqs
    rw [calculate_sector_deltas, List.mem_map] at hq
    obtain ⟨r, hr, rfl⟩ := hq
    have hr1 : r.1 = s := hqs
    have hmem : r.2 ∈ groupTimes rows s := by
      rw [groupTimes]
      exact List.mem_map_of_mem _ (List.mem_filter.mpr ⟨hr, by simp [hr1]⟩)
    have hle : bestSector rows s ≤ r.2 := listMin_le _ _ hmem
    rw [hr1]
    exact ⟨sub_nonneg.mpr hle, sub_eq_zero⟩
  · have hminmem : bestSector rows s ∈ groupTimes rows s := listMin_mem _ hgne
    rw [groupTimes, List.mem_map] at hminmem
    obtain ⟨r, hrf, hrv⟩ := hminmem
    have hr : r ∈ rows := (List.mem_filter.mp hrf).1
    have hr1 : r.1 = s := by
      have := (List.mem_filter.mp hrf).2
      simpa using this
    refine ⟨(r.1, r.2, r.2 - bestSector rows r.1), List.mem_map_of_mem _ hr, hr1, ?_⟩
    show r.2 - bestSector rows r.1 = 0
    rw [hr1, hrv]
    exact sub_self _

/-- Witness for C3: the amended sector-delta invariant evaluated on a
two-sector table. -/
theorem C3_sector_deltas_witness :
    ∃ q ∈ calculate_sector_deltas [("S1", 40), ("S2", 50), ("S1", 41)],
      q.1 = "S1" ∧ q.2.2 = 0 :=
  (C3_sector_deltas [("S1", 40), ("S2", 50), ("S1", 41)] "S1"
    ⟨("S1", 40), by simp, rfl⟩).2.2.1

/-- Embeds `config.SECTORS["Barber"]` (config.py lines 13-20) as the ordered
list of `(name, start, end)` sector ranges (Python dicts preserve insertion
order). -/
def SECTORS_Barber : List (String × ℚ × ℚ) :=
  [("S1.a", 0, 400), ("S1.b", 400, 800), ("S2.a", 800, 1200),
   ("S2.b", 1200, 1600), ("S3.a", 1600, 2000), ("S3.b", 2000, 2400)]

/-- Embeds `config.SECTORS["COTA"]` (config.py lines 21-28). -/
def SECTORS_COTA : List (String × ℚ × ℚ) :=
  [("S1.a", 0, 900), ("S1.b", 900, 1800), ("S2.a", 1800, 2700),
   ("S2.b", 2700, 3600), ("S3.a", 3600, 4500), ("S3.b", 4500, 5513)]

/-- A sector range `(name, start, end)` contains a distance when
`start <= distance < end` (telemetry_processor.py line 129). -/
def inSectorRange (e : String × ℚ × ℚ) (dist : ℚ) : Prop :=
  e.2.1 ≤ dist ∧ dist < e.2.2

instance (e : String × ℚ × ℚ) (dist : ℚ) : Decidable (inSectorRange e dist) :=
  inferInstanceAs (Decidable (_ ∧ _))

/-- Embeds the helper `get_sector` of `TelemetryProcessor.assign_sectors`
(telemetry_processor.py lines 127-131): the name of the first range whose
interval contains the distance, else the last sector name.  The result is
`none` only for an empty sector table, where the Python
`list(self.sectors.keys())[-1]` would raise; every configured table is
non-empty. -/
def get_sector (sectors : List (String × ℚ × ℚ)) (dist : ℚ) : Option String :=
  match sectors.find? (fun e => decide (inSectorRange e dist)) with
  | some e => some e.1
  | none => sectors.getLast?.map Prod.fst

/-- Embeds the sector label `TelemetryProcessor.assign_sectors`
(telemetry_processor.py lines 109-135) gives one row: the constant 'S1.a'
when the distance column is absent or no sector table is configured for the
track (`self.sectors is None`), else `get_sector` of the row's distance. -/
def assign_sector (sectors : Option (List (String × ℚ × ℚ))) (dist : Option ℚ) :
    Option String :=
  match sectors, dist with
  | some tbl, some d => get_sector tbl d
  | _, _ => some "S1.a"

lemma get_sector_spec (sectors : List (String × ℚ × ℚ)) (dist : ℚ)
    (h : sectors ≠ []) :
    ∃ nm, get_sector sectors dist = some nm ∧
      ((∃ pre e suf, sectors = pre ++ e :: suf ∧ inSectorRange e dist ∧
          (∀ y ∈ pre, ¬ inSectorRange y dist) ∧ nm = e.1) ∨
        ((∀ y ∈ sectors, ¬ inSectorRange y dist) ∧ nm = (sectors.getLast h).1)) := by
  cases hf : sectors.find? (fun e => decide (inSectorRange e dist)) with
  | some e =>
      obtain ⟨hpe, as, bs, heq, hprev⟩ := List.find?_eq_some.mp hf
      refine ⟨e.1, by simp [get_sector, hf], Or.inl ⟨as, e, bs, heq, ?_, ?_, rfl⟩⟩
      · exact of_decide_eq_true hpe
      · intro y hy
        have := hprev y hy
        simpa using this
  | none =>
      have hall : ∀ y ∈ sectors, ¬ inSectorRange y dist := by
        intro y hy
        have := List.find?_eq_none.mp hf y hy
        simpa using this
      exact ⟨(sectors.getLast h).1,
        by simp [get_sector, hf, List.getLast?_eq_getLast _ h], Or.inr ⟨hall, rfl⟩⟩

/-- Claim C5: `assign_sector` returns the name of the first range
`[start, end)` containing the distance, or the last sector name when the
distance lies beyond every range; on the Barber table both 2399.9 and the
overrun 2400.1 classify to the last sector 'S3.b'; and with no sector table
configured (or no distance channel) every row receives the constant label
'S1.a'. -/
theorem C5_assign_sector :
    (∀ (sectors : List (String × ℚ × ℚ)) (dist : ℚ) (h : sectors ≠ []),
      ∃ nm, get_sector sectors dist = some nm ∧
        ((∃ pre e suf, sectors = pre ++ e :: suf ∧ inSectorRange e dist ∧
            (∀ y ∈ pre, ¬ inSectorRange y dist) ∧ nm = e.1) ∨
          ((∀ y ∈ sectors, ¬ inSectorRange y dist) ∧ nm = (sectors.getLast h).1))) ∧
    get_sector SECTORS_Barber (2399.9 : ℚ) = some "S3.b" ∧
    get_sector SECTORS_Barber (2400.1 : ℚ) = some "S3.b" ∧
    (∀ dist, assign_sector none dist = some "S1.a") ∧
    (∀ sectors, assign_sector sectors none = some "S1.a") := by
  refine ⟨get_sector_spec, ?_, ?_, ?_, ?_⟩
  · unfold get_sector SECTORS_Barber
    rw [List.find?_cons_of_neg _ (by norm_num [inSectorRange]),
      List.find?_cons_of_neg _ (by norm_num [inSectorRange]),
      List.find?_cons_of_neg _ (by norm_num [inSectorRange]),
      List.find?_cons_of_neg _ (by norm_num [inSectorRange]),
      List.find?_cons_of_neg _ (by norm_num [inSectorRange]),
      List.find?_cons_of_pos _ (by norm_num [inSectorRange])]
  · unfold get_sector SECTORS_Barber
    rw [List.find?_cons_of_neg _ (by norm_num [inSectorRange]),
      List.find?_cons_of_neg _ (by norm_num [inSectorRange]),
      List.find?_cons_of_neg _ (by norm_num [inSectorRange]),
      List.find?_cons_of_neg _ (by norm_num [inSectorRange]),
      List.find?_cons_of_neg _ (by norm_num [inSectorRange]),
      List.find?_cons_of_neg _ (by norm_num [inSectorRange])]
    rfl
  · intro dist
    cases dist with
    | none => rfl
    | some d => rfl
  · intro sectors
    cases sectors with
    | none => rfl
    | some tbl => rfl

/-- Witness for C5: the first-match-or-last rule evaluated on the Barber
table at distance 2500 (beyond every range, absorbed by the last sector). -/
theorem C5_assign_sector_witness :
    ∃ nm, get_sector SECTORS_Barber 2500 = some nm ∧
      ((∃ pre e suf, SECTORS_Barber = pre ++ e :: suf ∧ inSectorRange e 2500 ∧
          (∀ y ∈ pre, ¬ inSectorRange y 2500) ∧ nm = e.1) ∨
        ((∀ y ∈ SECTORS_Barber, ¬ inSectorRange y 2500) ∧
          nm = (SECTORS_Barber.getLast (by simp [SECTORS_Barber])).1)) :=
  C5_assign_sector.1 SECTORS_Barber 2500 (by simp [SECTORS_Barber])

/-- Embeds `config.BRAKE_THRESHOLD` (config.py line 38): light braking, bar. -/
def BRAKE_THRESHOLD : ℚ := 20

/-- Embeds `config.HEAVY_BRAKE_THRESHOLD` (config.py line 39): heavy braking
zone, bar. -/
def HEAVY_BRAKE_THRESHOLD : ℚ := 50

/-- Embeds `config.THROTTLE_FULL_THRESHOLD` (config.py line 43): percent
throttle considered full. -/
def THROTTLE_FULL_THRESHOLD : ℚ := 90

/-- Embeds the `brake_intensity` value `calculate_braking_intensity`
(telemetry_processor.py lines 194-202) derives for one row, from the
optional channels `pbrake_f` and `pbrake_r`: the mean when both are present,
the single present channel otherwise, else the constant 0. -/
def calculate_brake_intensity (f r : Option ℚ) : ℚ :=
  match f, r with
  | some a, some b => (a + b) / 2
  | some a, none => a
  | none, some b => b
  | none, none => 0

/-- Embeds the `braking_zone` label of `calculate_braking_intensity`
(telemetry_processor.py lines 205-209): `pd.cut` with
`bins=[0, BRAKE_THRESHOLD, HEAVY_BRAKE_THRESHOLD, inf]` and labels
None/Light/Heavy.  `pd.cut` bins are left-open and right-closed, so the
label intervals are `(0, 20]`, `(20, 50]`, `(50, inf)`, and a value outside
every bin — in particular `brake_intensity = 0` — gets a missing label
(`none` here, NaN in pandas). -/
def braking_zone (x : ℚ) : Option String :=
  if 0 < x ∧ x ≤ BRAKE_THRESHOLD then some "None"
  else if BRAKE_THRESHOLD < x ∧ x ≤ HEAVY_BRAKE_THRESHOLD then some "Light"
  else if HEAVY_BRAKE_THRESHOLD < x then some "Heavy"
  else none

/-- Claim C7, counterexample: when neither brake channel is present every
row's `brake_intensity` is the constant 0, and `pd.cut` leaves 0 — which
lies outside the left-open first bin `(0, 20]` — without a label, so such a
row is classified into none of {None, Light, Heavy}. -/
theorem C7_counterexample :
    calculate_brake_intensity none none = 0 ∧
    braking_zone 0 = none ∧
    braking_zone 0 ≠ some "None" ∧
    braking_zone 0 ≠ some "Light" ∧
    braking_zone 0 ≠ some "Heavy" := by
  refine ⟨rfl, ?_, ?_, ?_, ?_⟩ <;> decide

/-- Claim C7 (amended): `brake_intensity` is the mean of front and rear
brake pressure when both channels are present, the single present channel
when only one is, and the constant 0 otherwise; every row whose
`brake_intensity` is positive is classified into exactly one of
{None, Light, Heavy} by the thresholds 20 and 50 bar (intervals `(0, 20]`,
`(20, 50]`, `(50, inf)`), while a row with `brake_intensity <= 0` — in
particular the constant-0 default — receives no label. -/
theorem C7_braking_intensity :
    (∀ f r : ℚ, calculate_brake_intensity (some f) (some r) = (f + r) / 2) ∧
    (∀ f : ℚ, calculate_brake_intensity (some f) none = f) ∧
    (∀ r : ℚ, calculate_brake_intensity none (some r) = r) ∧
    calculate_brake_intensity none none = 0 ∧
    (∀ x : ℚ, 0 < x →
      (braking_zone x = some "None" ↔ x ≤ BRAKE_THRESHOLD) ∧
      (braking_zone x = some "Light" ↔
        BRAKE_THRESHOLD < x ∧ x ≤ HEAVY_BRAKE_THRESHOLD) ∧
      (braking_zone x = some "Heavy" ↔ HEAVY_BRAKE_THRESHOLD < x)) ∧
    (∀ x : ℚ, x ≤ 0 → braking_zone x = none) := by
  have hBH : BRAKE_THRESHOLD ≤ HEAVY_BRAKE_THRESHOLD := by
    norm_num [BRAKE_THRESHOLD, HEAVY_BRAKE_THRESHOLD]
  have hB0 : 0 ≤ BRAKE_THRESHOLD := by norm_num [BRAKE_THRESHOLD]
  have hH0 : 0 ≤ HEAVY_BRAKE_THRESHOLD := by norm_num [HEAVY_BRAKE_THRESHOLD]
  refine ⟨fun f r => rfl, fun f => rfl, fun r => rfl, rfl, ?_, ?_⟩
  · intro x hx
    unfold braking_zone
    split_ifs with h1 h2 h3
    · refine ⟨⟨fun _ => h1.2, fun _ => rfl⟩, ?_, ?_⟩
      · simp only [Option.some.injEq]
        constructor
        · intro hcontra
          exact absurd hcontra (by decide)
        · rintro ⟨hl, _⟩
          exact absurd h1.2 (not_le.mpr hl)
      · simp only [Option.some.injEq]
        constructor
        · intro hcontra
          exact absurd hcontra (by decide)
        · intro hh
          exact absurd h1.2 (not_le.mpr (lt_of_le_of_lt hBH hh))
    · refine ⟨?_, ⟨fun _ => h2, fun _ => rfl⟩, ?_⟩
      · simp only [Option.some.injEq]
        constructor
        · intro hcontra
          exact absurd hcontra (by decide)
        · intro hle
          exact absurd hle (not_le.mpr h2.1)
      · simp only [Option.some.injEq]
        constructor
        · intro hcontra
          exact absurd hcontra (by decide)
        · intro hh
          exact absurd h2.2 (not_le.mpr hh)
    · push_neg at h1 h2
      have hBx : BRAKE_THRESHOLD < x := h1 hx
      refine ⟨?_, ?_, ⟨fun _ => h3, fun _ => rfl⟩⟩
      · simp only [Option.some.injEq]
        constructor
        · intro hcontra
          exact absurd hcontra (by decide)
        · intro hle
          exact absurd hle (not_le.mpr hBx)
      · simp only [Option.some.injEq]
        constructor
        · intro hcontra
          exact absurd hcontra (by decide)
        · rintro ⟨_, hle⟩
          exact absurd hle (not_le.mpr h3)
    · push_neg at h1 h2 h3
      have hBx : BRAKE_THRESHOLD < x := h1 hx
      have hHx : HEAVY_BRAKE_THRESHOLD < x := h2 hBx
      exact absurd h3 (not_le.mpr hHx)
  · intro x hx
    unfold braking_zone
    rw [if_neg (by rintro ⟨h, _⟩; linarith), if_neg (by rintro ⟨h, _⟩; linarith),
      if_neg (by intro h; linarith)]

/-- Witness for C7: the zone classification evaluated at 30 bar, which gets
the label 'Light'. -/
theorem C7_braking_intensity_witness :
    braking_zone 30 = some "Light" :=
  ((C7_braking_intensity.2.2.2.2.1 30 (by norm_num)).2.1).mpr
    (by norm_num [BRAKE_THRESHOLD, HEAVY_BRAKE_THRESHOLD])

/-- `np.mean`: sum over length (story_generator.py line 218). -/
noncomputable def npMean (l : List ℝ) : ℝ := l.sum / l.length

/-- `np.std` (population standard deviation, ddof = 0; story_generator.py
line 219). -/
noncomputable def npStd (l : List ℝ) : ℝ :=
  Real.sqrt ((l.map fun x => (x - npMean l) ^ 2).sum / l.length)

/-- pandas `Series.std` (sample standard deviation, ddof = 1), used on the
Speed channel by `calculate_risk_index` (story_generator.py line 310). -/
noncomputable def pdStd (l : List ℝ) : ℝ :=
  Real.sqrt ((l.map fun x => (x - npMean l) ^ 2).sum / ((l.length : ℝ) - 1))

/-- Embeds the piecewise cv-to-score mapping of
`RaceStoryGenerator.calculate_consistency_score` (story_generator.py lines
235-245). -/
noncomputable def scoreOfCv (cv : ℝ) : ℝ :=
  if cv < 0.5 then 10
  else if cv < 2 then 10 - (cv - 0.5) * (2.5 / 1.5)
  else if cv < 10 then 7.5 - (cv - 2) * (5.0 / 8.0)
  else max 0 (2.5 - (cv - 10) * (2.5 / 5))

/-- Embeds the consistency rating bands (story_generator.py lines 247-257). -/
noncomputable def consistencyRating (score : ℝ) : String :=
  if 8.5 ≤ score then "Excellent"
  else if 7 ≤ score then "Very Good"
  else if 5.5 ≤ score then "Good"
  else if 4 ≤ score then "Fair"
  else "Needs Improvement"

/-- Embeds `RaceStoryGenerator.calculate_consistency_score`
(story_generator.py lines 199-265), reduced to the `(score, rating)` pair of
the returned dict.  The lap-time table is represented by its `lap_time`
column; `cv = (std_dev / mean_time) * 100` (line 225).  The dict applies
`round(score, 1)` for display, which fixes the values 0 and 10 and is
monotone, so the unrounded score is modelled. -/
noncomputable def calculate_consistency_score (times : List ℝ) : ℝ × String :=
  if times.length < 3 then (0, "N/A")
  else
    (scoreOfCv (npStd times / npMean times * 100),
      consistencyRating (scoreOfCv (npStd times / npMean times * 100)))

lemma scoreOfCv_antitone : ∀ a b : ℝ, a ≤ b → scoreOfCv b ≤ scoreOfCv a := by
  intro a b hab
  unfold scoreOfCv
  split_ifs
  all_goals try linarith
  all_goals
    first
    | · apply max_le
        · linarith
        · linarith
    | exact max_le_max (le_refl 0) (by linarith)

/-- Claim C4: with at least 3 laps, `calculate_consistency_score` maps
`cv = 100 * std / mean` through the piecewise function of the source:
below 0.5 the score is 10; on `[0.5, 2)` it declines linearly from 10
toward 7.5; on `[2, 10)` from 7.5 toward 2.5; from 10 on it declines from
2.5 and is floored at 0 (reaching the floor at cv = 15); the mapping is
monotonically non-increasing, and at cv = 0.5 the score is exactly 10.
With fewer than 3 laps the result is score 0 and rating "N/A". -/
theorem C4_consistency_score :
    (∀ times : List ℝ, times.length < 3 →
      calculate_consistency_score times = (0, "N/A")) ∧
    (∀ times : List ℝ, 3 ≤ times.length →
      (calculate_consistency_score times).1 =
        scoreOfCv (npStd times / npMean times * 100)) ∧
    (∀ cv : ℝ, cv < 0.5 → scoreOfCv cv = 10) ∧
    (∀ cv : ℝ, 0.5 ≤ cv → cv < 2 → scoreOfCv cv = 10 - (cv - 0.5) * (2.5 / 1.5)) ∧
    (∀ cv : ℝ, 2 ≤ cv → cv < 10 → scoreOfCv cv = 7.5 - (cv - 2) * (5.0 / 8.0)) ∧
    (∀ cv : ℝ, 10 ≤ cv → scoreOfCv cv = max 0 (2.5 - (cv - 10) * (2.5 / 5))) ∧
    scoreOfCv 0.5 = 10 ∧
    scoreOfCv 2 = 7.5 ∧
    scoreOfCv 10 = 2.5 ∧
    (∀ cv : ℝ, 15 ≤ cv → scoreOfCv cv = 0) ∧
    (∀ a b : ℝ, a ≤ b → scoreOfCv b ≤ scoreOfCv a) := by
  have hb1 : ∀ cv : ℝ, cv < 0.5 → scoreOfCv cv = 10 := by
    intro cv h
    simp [scoreOfCv, h]
  have hb2 : ∀ cv : ℝ, 0.5 ≤ cv → cv < 2 →
      scoreOfCv cv = 10 - (cv - 0.5) * (2.5 / 1.5) := by
    intro cv h1 h2
    simp [scoreOfCv, not_lt.mpr h1, h2]
  have hb3 : ∀ cv : ℝ, 2 ≤ cv → cv < 10 →
      scoreOfCv cv = 7.5 - (cv - 2) * (5.0 / 8.0) := by
    intro cv h1 h2
    have h05 : ¬ cv < 0.5 := by linarith
    simp [scoreOfCv, h05, not_lt.mpr h1, h2]
  have hb4 : ∀ cv : ℝ, 10 ≤ cv →
      scoreOfCv cv = max 0 (2.5 - (cv - 10) * (2.5 / 5)) := by
    intro cv h1
    have h05 : ¬ cv < 0.5 := by linarith
    have h2 : ¬ cv < 2 := by linarith
    simp [scoreOfCv, h05, h2, not_lt.mpr h1]
  refine ⟨?_, ?_, hb1, hb2, hb3, hb4, ?_, ?_, ?_, ?_, scoreOfCv_antitone⟩
  · intro times h
    simp [calculate_consistency_score, h]
  · intro times h
    simp [calculate_consistency_score, not_lt.mpr h]
  · rw [hb2 0.5 (le_refl _) (by norm_num)]
    norm_num
  · rw [hb3 2 (le_refl _) (by norm_num)]
    norm_num
  · rw [hb4 10 (le_refl _)]
    norm_num
  · intro cv h
    rw [hb4 cv (by linarith)]
    apply max_eq_left
    linarith

/-- Witness for C4: the guard and the piecewise mapping evaluated at
concrete inputs (2 laps; cv = 3; cv = 20). -/
theorem C4_consistency_score_witness :
    calculate_consistency_score [90, 90] = (0, "N/A") ∧
    scoreOfCv 3 = 7.5 - (3 - 2) * (5.0 / 8.0) ∧
    scoreOfCv 20 = 0 :=
  ⟨C4_consistency_score.1 [90, 90] (by norm_num),
   C4_consistency_score.2.2.2.2.1 3 (by norm_num) (by norm_num),
   C4_consistency_score.2.2.2.2.2.2.2.2.2.1 20 (by norm_num)⟩

/-- The channels of the full-telemetry DataFrame read by
`RaceStoryGenerator.calculate_risk_index`: the row count `len(telemetry)`
and the optional columns `brake_intensity`, `ath` and `Speed`. -/
structure Telemetry where
  n : ℕ
  brake_intensity : Option (List ℚ)
  ath : Option (List ℚ)
  speed : Option (List ℝ)

/-- Embeds the braking-aggression component (story_generator.py lines
286-295): `min(10, heavy_braking_pct * 2)` where `heavy_braking_pct` is the
percentage of rows with `brake_intensity > HEAVY_BRAKE_THRESHOLD`; 5.0 when
the channel is missing. -/
def brakeScore (t : Telemetry) : ℚ :=
  match t.brake_intensity with
  | some l =>
      min 10 (((l.countP fun x => decide (HEAVY_BRAKE_THRESHOLD < x)) : ℚ)
        / t.n * 100 * 2)
  | none => 5

/-- Embeds the throttle-aggression component (story_generator.py lines
297-306): `min(10, full_throttle_pct / 5)` where `full_throttle_pct` is the
percentage of rows with `ath > THROTTLE_FULL_THRESHOLD`; 5.0 when missing. -/
def throttleScore (t : Telemetry) : ℚ :=
  match t.ath with
  | some l =>
      min 10 (((l.countP fun x => decide (THROTTLE_FULL_THRESHOLD < x)) : ℚ)
        / t.n * 100 / 5)
  | none => 5

/-- Embeds the corner-variance component (story_generator.py lines 308-314):
`min(10, speed_cv / 2)` with `speed_cv = (Speed.std() / Speed.mean()) * 100`;
5.0 when the Speed channel is missing. -/
noncomputable def cornerScore (t : Telemetry) : ℝ :=
  match t.speed with
  | some l => min 10 (pdStd l / npMean l * 100 / 2)
  | none => 5

/-- Embeds `RaceStoryGenerator.calculate_risk_index` (story_generator.py
lines 267-337), reduced to the composite `risk_score` (lines 316-321); the
returned dict rounds it to one decimal for display.  An empty table returns
score 0 (lines 277-283). -/
noncomputable def calculate_risk_index (t : Telemetry) : ℝ :=
  if t.n = 0 then 0
  else (brakeScore t : ℝ) * 0.4 + (throttleScore t : ℝ) * 0.3 + cornerScore t * 0.3

/-- Claim C6: for every non-empty telemetry table the risk index is
`0.4 * brake + 0.3 * throttle + 0.3 * corner`, where each component
independently defaults to 5.0 when its source channel is absent,
`brake = min(10, 2 * percent of rows in heavy braking)`,
`throttle = min(10, percent of rows at full throttle / 5)`,
`corner = min(10, 100 * std(speed) / mean(speed) / 2)`; and when 100% of
rows are in heavy braking the braking component equals 10. -/
theorem C6_risk_index (t : Telemetry) (hn : 0 < t.n) :
    calculate_risk_index t =
      (brakeScore t : ℝ) * 0.4 + (throttleScore t : ℝ) * 0.3 + cornerScore t * 0.3 ∧
    (t.brake_intensity = none → brakeScore t = 5) ∧
    (t.ath = none → throttleScore t = 5) ∧
    (t.speed = none → cornerScore t = 5) ∧
    (∀ l, t.brake_intensity = some l →
      brakeScore t = min 10
        (((l.countP fun x => decide (HEAVY_BRAKE_THRESHOLD < x)) : ℚ)
          / t.n * 100 * 2)) ∧
    (∀ l, t.ath = some l →
      throttleScore t = min 10
        (((l.countP fun x => decide (THROTTLE_FULL_THRESHOLD < x)) : ℚ)
          / t.n * 100 / 5)) ∧
    (∀ l, t.speed = some l →
      cornerScore t = min 10 (pdStd l / npMean l * 100 / 2)) ∧
    (∀ l, t.brake_intensity = some l → l.length = t.n →
      (∀ x ∈ l, HEAVY_BRAKE_THRESHOLD < x) → brakeScore t = 10) := by
  refine ⟨?_, ?_, ?_, ?_, ?_, ?_, ?_, ?_⟩
  · simp [calculate_risk_index, Nat.pos_iff_ne_zero.mp hn]
  · intro h
    simp [brakeScore, h]
  · intro h
    simp [throttleScore, h]
  · intro h
    simp [cornerScore, h]
  · intro l h
    simp [brakeScore, h]
  · intro l h
    simp [throttleScore, h]
  · intro l h
    simp [cornerScore, h]
  · intro l hl hlen hall
    have hcnt : (l.countP fun x => decide (HEAVY_BRAKE_THRESHOLD < x)) = l.length :=
      List.countP_eq_length.mpr fun a ha => decide_eq_true (hall a ha)
    have hne : (t.n : ℚ) ≠ 0 := Nat.cast_ne_zero.mpr (Nat.pos_iff_ne_zero.mp hn)
    simp only [brakeScore, hl, hcnt, hlen]
    rw [div_self hne, show (1 : ℚ) * 100 * 2 = 200 by norm_num,
      min_eq_left (by norm_num)]

/-- Witness for C6: a two-row table whose every row is in heavy braking has
braking component 10, and a missing throttle channel defaults to 5. -/
theorem C6_risk_index_witness :
    brakeScore ⟨2, some [60, 70], none, none⟩ = 10 ∧
    throttleScore ⟨2, some [60, 70], none, none⟩ = 5 :=
  ⟨(C6_risk_index ⟨2, some [60, 70], none, none⟩ (by norm_num)).2.2.2.2.2.2.2
      [60, 70] rfl rfl (by decide),
   (C6_risk_index ⟨2, some [60, 70], none, none⟩ (by norm_num)).2.2.1 rfl⟩

/-- Embeds `format_lap_time` (visualizations.py lines 381-397) numerically:
`minutes = int(seconds // 60)` and the seconds field `secs = seconds % 60`
is rendered by `{secs:06.3f}`, i.e. to the nearest millisecond; the pair is
(minutes, milliseconds rendered), the numeric content of the string
`f"{minutes}:{secs:06.3f}"`.  (Python's float formatting resolves exact
half-millisecond ties to even; `round` resolves them upward.  Both are
nearest-millisecond renderings, and the round-trip bound proved below holds
for either tie rule.) -/
def format_lap_time (s : ℚ) : ℤ × ℤ :=
  (⌊s / 60⌋, round ((s - 60 * ⌊s / 60⌋) * 1000))

/-- The inverse parse named by the claim: `minutes * 60 + seconds`, the
rendered seconds field being milliseconds over 1000. -/
def parse_lap_time (p : ℤ × ℤ) : ℚ := p.1 * 60 + (p.2 : ℚ) / 1000

/-- Claim C10: for every lap time in [0, 3600), the value recovered from the
formatted output by the parse `minutes * 60 + seconds` differs from the
original by at most half a millisecond, hence strictly less than one
millisecond. -/
theorem C10_format_round_trip (s : ℚ) (_h0 : 0 ≤ s) (_h1 : s < 3600) :
    |parse_lap_time (format_lap_time s) - s| ≤ 1 / 2000 ∧
    |parse_lap_time (format_lap_time s) - s| < 1 / 1000 := by
  have key : parse_lap_time (format_lap_time s) - s =
      ((round ((s - 60 * ⌊s / 60⌋) * 1000) : ℚ) - (s - 60 * ⌊s / 60⌋) * 1000) / 1000 := by
    unfold parse_lap_time format_lap_time
    push_cast
    ring
  have h2 : |(round ((s - 60 * ⌊s / 60⌋) * 1000) : ℚ) -
      (s - 60 * ⌊s / 60⌋) * 1000| ≤ 1 / 2 := by
    rw [abs_sub_comm]
    exact abs_sub_round _
  have habs : |parse_lap_time (format_lap_time s) - s| ≤ 1 / 2000 := by
    rw [key, abs_div]
    rw [show |(1000 : ℚ)| = 1000 by norm_num]
    calc |(round ((s - 60 * ⌊s / 60⌋) * 1000) : ℚ) -
          (s - 60 * ⌊s / 60⌋) * 1000| / 1000
        ≤ (1 / 2) / 1000 := by gcongr
        _ = 1 / 2000 := by norm_num
  exact ⟨habs, lt_of_le_of_lt habs (by norm_num)⟩

/-- Witness for C10: the round trip evaluated at 90.5 seconds. -/
theorem C10_format_round_trip_witness :
    |parse_lap_time (format_lap_time (181 / 2)) - 181 / 2| < 1 / 1000 :=
  (C10_format_round_trip (181 / 2) (by norm_num) (by norm_num)).2

end LapLens
